import Mathlib

/-!
Verification of the caching and request-coalescing core of the music
gateway server (`server.py`) against its specification.

The Python source is shallowly embedded: each cache tier is an association
list from string keys to entries, time is `Int` (Python's arithmetic on
timestamps never truncates), and side-effecting functions return the
updated state explicitly.
-/

set_option autoImplicit false

namespace MusicTune

/-- A value stored in a cache tier.  `set_cached` always stores the
two-element list `[data, timestamp]`; `pair` models exactly that shape.
Any other JSON value that may appear in the persisted snapshot (not a
two-element list) is modelled by `other`, which `get_cached` refuses to
unpack. -/
inductive CacheEntry (α : Type) where
  | pair (data : α) (writtenAt : Int)
  | other
  deriving DecidableEq, Repr

/-- A cache tier: a Python dict from string key to entry, modelled as an
association list with at most one binding per key. -/
abbrev CacheTier (α : Type) := List (String × CacheEntry α)

/-- Dict lookup `cache[key]` / `key in cache`. -/
def tierLookup {α : Type} : CacheTier α → String → Option (CacheEntry α)
  | [], _ => none
  | (k', e) :: rest, k => if k' = k then some e else tierLookup rest k

/-- Dict deletion `del cache[key]`. -/
def tierErase {α : Type} : CacheTier α → String → CacheTier α
  | [], _ => []
  | (k', e) :: rest, k =>
      if k' = k then tierErase rest k else (k', e) :: tierErase rest k

/-- Dict assignment `cache[key] = e` (replaces any existing binding). -/
def tierSet {α : Type} (t : CacheTier α) (k : String) (e : CacheEntry α) :
    CacheTier α :=
  (k, e) :: tierErase t k

/-- `CACHE_DURATION = 6 * 60 * 60` in `server.py`. -/
def CACHE_DURATION : Int := 6 * 60 * 60

/-- `get_cached(cache, key, ttl)` from `server.py`:

```
if key in cache:
    entry = cache[key]
    if isinstance(entry, list) and len(entry) == 2:
        data, timestamp = entry
        if time.time() - timestamp < ttl:
            return data
        else:
            del cache[key]
return None
```

The current clock reading `time.time()` is the explicit argument `now`;
the possibly mutated tier is returned alongside the result. -/
def get_cached {α : Type} (cache : CacheTier α) (now : Int) (key : String)
    (ttl : Int) : Option α × CacheTier α :=
  match tierLookup cache key with
  | some (CacheEntry.pair data timestamp) =>
      if now - timestamp < ttl then (some data, cache)
      else (none, tierErase cache key)
  | some CacheEntry.other => (none, cache)
  | none => (none, cache)

/-- `set_cached(cache, key, data)` from `server.py`: stores
`[data, time.time()]` under the key. -/
def set_cached {α : Type} (cache : CacheTier α) (now : Int) (key : String)
    (data : α) : CacheTier α :=
  tierSet cache key (CacheEntry.pair data now)

theorem tierLookup_erase_self {α : Type} (t : CacheTier α) (k : String) :
    tierLookup (tierErase t k) k = none := by
  induction t with
  | nil => rfl
  | cons p rest ih =>
      obtain ⟨k', e⟩ := p
      by_cases h : k' = k
      · simp [tierErase, h, ih]
      · simp [tierErase, tierLookup, h, ih]

theorem tierLookup_erase_ne {α : Type} (t : CacheTier α) (k k' : String)
    (h : k' ≠ k) : tierLookup (tierErase t k) k' = tierLookup t k' := by
  induction t with
  | nil => rfl
  | cons p rest ih =>
      obtain ⟨k₀, e⟩ := p
      by_cases h0 : k₀ = k
      · subst h0
        have hne : k₀ ≠ k' := fun hc => h hc.symm
        simp [tierErase, tierLookup, hne, ih]
      · by_cases h1 : k₀ = k'
        · subst h1
          simp [tierErase, tierLookup, h0, h]
        · simp [tierErase, tierLookup, h0, h1, ih]

theorem tierLookup_set_self {α : Type} (t : CacheTier α) (k : String)
    (e : CacheEntry α) : tierLookup (tierSet t k e) k = some e := by
  simp [tierSet, tierLookup]

theorem tierLookup_set_ne {α : Type} (t : CacheTier α) (k k' : String)
    (e : CacheEntry α) (h : k' ≠ k) :
    tierLookup (tierSet t k e) k' = tierLookup t k' := by
  have : k ≠ k' := fun hc => h hc.symm
  simp [tierSet, tierLookup, this, tierLookup_erase_ne t k k' h]

/-- C1 — counterexample.  The claim asserts that after waiting `t1 ≤ w < t2`
since `set`, `get(tier,k,t1)` returns absent while a *subsequent*
`get(tier,k,t2)` still returns `v`.  But the expired observation at TTL
`t1` lazily deletes the entry, so the subsequent read at TTL `t2` is
absent as well.  Concretely: `set` at time 0, reads at time 5 with
`t1 = 3 < t2 = 10`. -/
theorem C1_counterexample :
    (3 : Int) ≤ 5 ∧ (5 : Int) < 10 ∧
    (get_cached (set_cached ([] : CacheTier Nat) 0 "k" 7) 5 "k" 3).1 = none ∧
    ¬ ((get_cached
          (get_cached (set_cached ([] : CacheTier Nat) 0 "k" 7) 5 "k" 3).2
          5 "k" 10).1 = some 7) := by
  decide

/-- C1 — amended.  For positive TTLs `t1 < t2`: immediately after
`set(tier,k,v)`, `get(tier,k,t1)` returns `v`; after waiting
`t1 ≤ w < t2`, `get(tier,k,t2)` still returns `v` provided it is
performed before the TTL-`t1` read; `get(tier,k,t1)` then returns absent
and evicts the entry, after which `get(tier,k,t2)` returns absent too. -/
theorem C1_ttl_ordering {α : Type} (tier : CacheTier α) (k : String) (v : α)
    (now t1 t2 w : Int) (ht1 : 0 < t1) (h12 : t1 < t2) (hw1 : t1 ≤ w)
    (hw2 : w < t2) :
    (get_cached (set_cached tier now k v) now k t1).1 = some v ∧
    (get_cached (set_cached tier now k v) (now + w) k t2).1 = some v ∧
    (get_cached (set_cached tier now k v) (now + w) k t1).1 = none ∧
    (get_cached
        (get_cached (set_cached tier now k v) (now + w) k t1).2
        (now + w) k t2).1 = none := by
  have hl : tierLookup (set_cached tier now k v) k
      = some (CacheEntry.pair v now) := tierLookup_set_self tier k _
  refine ⟨?_, ?_, ?_, ?_⟩
  · simp only [get_cached, hl]
    rw [if_pos (by omega)]
  · simp only [get_cached, hl]
    rw [if_pos (by omega)]
  · simp only [get_cached, hl]
    rw [if_neg (by omega)]
  · simp only [get_cached, hl]
    rw [if_neg (by omega)]
    simp only [get_cached, tierLookup_erase_self]

/-- C1 — witness for the amended theorem at a concrete instance. -/
theorem C1_ttl_ordering_witness :
    (0 : Int) < 3 ∧ (3 : Int) < 10 ∧ (3 : Int) ≤ 5 ∧ (5 : Int) < 10 ∧
    ((get_cached (set_cached ([] : CacheTier Nat) 0 "k" 7) 0 "k" 3).1 = some 7 ∧
     (get_cached (set_cached ([] : CacheTier Nat) 0 "k" 7) (0 + 5) "k" 10).1 = some 7 ∧
     (get_cached (set_cached ([] : CacheTier Nat) 0 "k" 7) (0 + 5) "k" 3).1 = none ∧
     (get_cached
        (get_cached (set_cached ([] : CacheTier Nat) 0 "k" 7) (0 + 5) "k" 3).2
        (0 + 5) "k" 10).1 = none) :=
  ⟨by decide, by decide, by decide, by decide,
   C1_ttl_ordering ([] : CacheTier Nat) "k" 7 0 3 10 5 (by decide) (by decide)
     (by decide) (by decide)⟩

/-- C2 — confirmed.  If the stored entry for `k` is a well-formed
`[value, writtenAt]` pair with `now - writtenAt ≥ ttl`, then `get`
returns absent and the entry has been deleted from the tier (lazy
expiry-eviction on observation). -/
theorem C2_lazy_expiry {α : Type} (cache : CacheTier α) (now : Int)
    (k : String) (v : α) (ts ttl : Int)
    (hwf : tierLookup cache k = some (CacheEntry.pair v ts))
    (hexp : ttl ≤ now - ts) :
    (get_cached cache now k ttl).1 = none ∧
    tierLookup (get_cached cache now k ttl).2 k = none := by
  simp only [get_cached, hwf]
  rw [if_neg (by omega)]
  exact ⟨rfl, tierLookup_erase_self cache k⟩

/-- C2 — witness at a concrete instance. -/
theorem C2_lazy_expiry_witness :
    tierLookup [("k", CacheEntry.pair (7 : Nat) 2)] "k"
        = some (CacheEntry.pair (7 : Nat) 2) ∧
    (10 : Int) ≤ 12 - 2 ∧
    ((get_cached [("k", CacheEntry.pair (7 : Nat) 2)] 12 "k" 10).1 = none ∧
     tierLookup (get_cached [("k", CacheEntry.pair (7 : Nat) 2)] 12 "k" 10).2 "k"
        = none) :=
  ⟨by decide, by decide,
   C2_lazy_expiry [("k", CacheEntry.pair (7 : Nat) 2)] 12 "k" 7 2 10
     (by decide) (by decide)⟩

/-- C9 — confirmed.  If the stored entry for `k` is not a two-element
`[value, timestamp]` list, `get_cached` returns absent but leaves the
tier unchanged: the malformed entry is not evicted, unlike an expired
well-formed entry. -/
theorem C9_malformed_entry_not_evicted {α : Type} (cache : CacheTier α)
    (now : Int) (k : String) (ttl : Int)
    (hmal : tierLookup cache k = some CacheEntry.other) :
    get_cached cache now k ttl = (none, cache) := by
  simp only [get_cached, hmal]

/-- C9 — witness at a concrete instance. -/
theorem C9_malformed_entry_not_evicted_witness :
    tierLookup [("k", (CacheEntry.other : CacheEntry Nat))] "k"
        = some CacheEntry.other ∧
    get_cached [("k", (CacheEntry.other : CacheEntry Nat))] 5 "k" 10
        = (none, [("k", (CacheEntry.other : CacheEntry Nat))]) :=
  ⟨by decide,
   C9_malformed_entry_not_evicted [("k", (CacheEntry.other : CacheEntry Nat))]
     5 "k" 10 (by decide)⟩

/-! ## Persistence snapshot loading (`load_cache`) -/

/-- The persisted snapshot: three named sections, one per tier
(`playlists`, `streams`, `metadata` in `server_cache.json`). -/
structure SnapshotData (α : Type) where
  playlists : CacheTier α
  streams : CacheTier α
  metadata : CacheTier α
  deriving DecidableEq, Repr

/-- Python's `s.startswith(p)`, computed on the underlying character
lists (kernel-reducible, unlike `String.startsWith`'s byte machinery). -/
def startsWithStr (s p : String) : Bool :=
  p.data.isPrefixOf s.data

/-- Removal of every binding whose key satisfies the predicate — the net
effect of collecting `keys_to_remove` and `del`-ing each. -/
def dropKeys {α : Type} (pred : String → Bool) : CacheTier α → CacheTier α
  | [] => []
  | (k, e) :: rest =>
      if pred k then dropKeys pred rest
      else (k, e) :: dropKeys pred rest

/-- The startup purge inside `load_cache`:

```
keys_to_remove = [k for k in playlist_cache if k.startswith('playlists_filtered_')]
for k in keys_to_remove:
    del playlist_cache[k]
``` -/
def purgeFilteredKeys {α : Type} (t : CacheTier α) : CacheTier α :=
  dropKeys (fun k => startsWithStr k "playlists_filtered_") t

/-- `load_cache()` from `server.py`, restricted to a successfully parsed
snapshot: the three tiers are taken from the snapshot's sections, and the
playlist tier is purged of every key starting with
`playlists_filtered_` before the tiers are used. -/
def load_cache {α : Type} (data : SnapshotData α) : SnapshotData α :=
  { playlists := purgeFilteredKeys data.playlists
    streams := data.streams
    metadata := data.metadata }

theorem tierLookup_dropKeys {α : Type} (pred : String → Bool)
    (t : CacheTier α) (k : String) :
    tierLookup (dropKeys pred t) k
      = if pred k then none else tierLookup t k := by
  induction t with
  | nil => simp [dropKeys, tierLookup]
  | cons p rest ih =>
      obtain ⟨k₀, e⟩ := p
      by_cases h0 : pred k₀
      · by_cases h1 : k₀ = k
        · subst h1
          simp [dropKeys, h0, ih, tierLookup]
        · simp [dropKeys, h0, ih, tierLookup, h1]
      · by_cases h1 : k₀ = k
        · subst h1
          simp [dropKeys, h0, tierLookup, ih]
        · simp [dropKeys, h0, tierLookup, h1, ih]

/-- C8 — confirmed.  On load of the persisted snapshot, every playlist-tier
entry whose key starts with `playlists_filtered_` is purged, while every
other playlist-tier entry and the whole streams and metadata tiers are
retained unchanged. -/
theorem C8_startup_purge {α : Type} (data : SnapshotData α) (k : String) :
    (startsWithStr k "playlists_filtered_" = true →
        tierLookup (load_cache data).playlists k = none) ∧
    (startsWithStr k "playlists_filtered_" = false →
        tierLookup (load_cache data).playlists k = tierLookup data.playlists k) ∧
    (load_cache data).streams = data.streams ∧
    (load_cache data).metadata = data.metadata := by
  refine ⟨?_, ?_, rfl, rfl⟩
  · intro h
    simp [load_cache, purgeFilteredKeys, tierLookup_dropKeys, h]
  · intro h
    simp [load_cache, purgeFilteredKeys, tierLookup_dropKeys, h]

/-- C8 — witness at a concrete snapshot holding one filtered-listing key
and one other playlist key. -/
theorem C8_startup_purge_witness :
    (startsWithStr "playlists_filtered_netease" "playlists_filtered_" = true ∧
     tierLookup (load_cache
        (SnapshotData.mk
          [("playlists_filtered_netease", CacheEntry.pair (1 : Nat) 0),
           ("playlist_detail_x", CacheEntry.pair (2 : Nat) 0)]
          [] [])).playlists "playlists_filtered_netease" = none) ∧
    (startsWithStr "playlist_detail_x" "playlists_filtered_" = false ∧
     tierLookup (load_cache
        (SnapshotData.mk
          [("playlists_filtered_netease", CacheEntry.pair (1 : Nat) 0),
           ("playlist_detail_x", CacheEntry.pair (2 : Nat) 0)]
          [] [])).playlists "playlist_detail_x"
       = tierLookup
          [("playlists_filtered_netease", CacheEntry.pair (1 : Nat) 0),
           ("playlist_detail_x", CacheEntry.pair (2 : Nat) 0)]
          "playlist_detail_x") :=
  ⟨⟨by decide,
    (C8_startup_purge
      (SnapshotData.mk
        [("playlists_filtered_netease", CacheEntry.pair (1 : Nat) 0),
         ("playlist_detail_x", CacheEntry.pair (2 : Nat) 0)] [] [])
      "playlists_filtered_netease").1 (by decide)⟩,
   ⟨by decide,
    ((C8_startup_purge
      (SnapshotData.mk
        [("playlists_filtered_netease", CacheEntry.pair (1 : Nat) 0),
         ("playlist_detail_x", CacheEntry.pair (2 : Nat) 0)] [] [])
      "playlist_detail_x").2).1 (by decide)⟩⟩

/-! ## Pending-request coalescer (`pending_requests` in `stream`) -/

/-- `pending_requests.add(key)` on the Python set, modelled on a
duplicate-free list. -/
def pendingAdd (p : List String) (k : String) : List String :=
  if k ∈ p then p else k :: p

/-- `pending_requests.discard(key)`. -/
def pendingDiscard : List String → String → List String
  | [], _ => []
  | x :: rest, k =>
      if x = k then pendingDiscard rest k else x :: pendingDiscard rest k

/-- The three code paths in `stream` by which a caller comes to own the
pending marker for a key: the initial claim (`pending_requests.add` when
the key was not pending), take-over after the marker disappeared during
the wait loop, and take-over after the 35-second wait budget expired.
Each path executes its own `pending_requests.add(cache_key)` call site. -/
inductive ClaimPath where
  | initial
  | takeoverVanished
  | takeoverTimeout
  deriving DecidableEq, Repr

/-- The pending set after the claiming bookkeeping of the given path; all
three call sites perform `pending_requests.add(cache_key)`. -/
def claim_marker (path : ClaimPath) (p : List String) (k : String) :
    List String :=
  match path with
  | ClaimPath.initial => pendingAdd p k
  | ClaimPath.takeoverVanished => pendingAdd p k
  | ClaimPath.takeoverTimeout => pendingAdd p k

/-- Outcome of `tunehub_client.parse_song` inside the `try` block of
`stream`: either it returns a payload whose `url` field is the given
string (possibly empty), or it raises. -/
inductive ParseOutcome where
  | parsed (url : String)
  | raised
  deriving DecidableEq, Repr

/-- What `stream`'s resolution block hands back to the client. -/
inductive StreamExit where
  | redirect (url : String)
  | errorResponse (code : Nat)
  | raised
  deriving DecidableEq, Repr

/-- The `try … finally` resolution block of `stream` (`server.py`),
entered with the pending marker held: on a parsed non-empty URL the
stream-URL tier is written and a 302 redirect is returned; on an empty
URL an error 70 response is returned; on an exception the exception
propagates.  In every case the `finally` clause runs
`pending_requests.discard(cache_key)`. -/
def stream_resolution (tier : CacheTier String) (pending : List String)
    (now : Int) (ck : String) (oc : ParseOutcome) :
    StreamExit × CacheTier String × List String :=
  match oc with
  | ParseOutcome.raised =>
      (StreamExit.raised, tier, pendingDiscard pending ck)
  | ParseOutcome.parsed url =>
      if url = "" then
        (StreamExit.errorResponse 70, tier, pendingDiscard pending ck)
      else
        (StreamExit.redirect url, set_cached tier now ck url,
          pendingDiscard pending ck)

theorem mem_pendingAdd (p : List String) (k : String) : k ∈ pendingAdd p k := by
  by_cases h : k ∈ p
  · simpa [pendingAdd, h]
  · simp [pendingAdd, h]

theorem not_mem_pendingDiscard (p : List String) (k : String) :
    k ∉ pendingDiscard p k := by
  induction p with
  | nil => simp [pendingDiscard]
  | cons x rest ih =>
      by_cases h : x = k
      · simp [pendingDiscard, h, ih]
      · simp [pendingDiscard, h, ih]
        exact fun hc => h hc.symm

/-- C4 — confirmed.  Whichever of the three paths claimed the pending
marker for a key, and whatever the outcome of the resolution (success,
empty-URL upstream error returned to the client, or raised exception),
the `finally` clause removes the marker: after the resolution the key is
no longer in the pending set, so a normal failure never leaves the
marker stuck. -/
theorem C4_marker_always_released (tier : CacheTier String)
    (pending : List String) (now : Int) (ck : String) (path : ClaimPath)
    (oc : ParseOutcome) :
    ck ∈ claim_marker path pending ck ∧
    ck ∉ (stream_resolution tier (claim_marker path pending ck) now ck oc).2.2 := by
  constructor
  · cases path <;> exact mem_pendingAdd pending ck
  · cases oc with
    | raised => exact not_mem_pendingDiscard _ ck
    | parsed url =>
        by_cases h : url = "" <;>
          simp [stream_resolution, h, not_mem_pendingDiscard]

/-! ## Bounded disk content store: naming and lookup -/

/-- Python's `s.endswith(p)` on the underlying character lists. -/
def endsWithStr (s p : String) : Bool :=
  p.data.isSuffixOf s.data

/-- `sanitize_filename(name)` from `server.py`: replace each unsafe
character with `_`, strip leading/trailing spaces and dots, and truncate
to 50 characters. -/
def sanitize_filename (name : String) : String :=
  if name = "" then "" else
    let unsafeChars : List Char :=
      ['/', '\\', ':', '*', '?', '"', '<', '>', '|', '\n', '\r', '\t']
    let replaced := name.data.map (fun c => if unsafeChars.contains c then '_' else c)
    let isStrip : Char → Bool := fun c => c == ' ' || c == '.'
    let stripped :=
      ((replaced.dropWhile isStrip).reverse.dropWhile isStrip).reverse
    if stripped.length > 50 then String.mk (stripped.take 50)
    else String.mk stripped

/-- `strip_platform_prefix(name)` from `server.py`: remove the first
matching platform marker among `"网易云 - "`, `"QQ - "`, `"酷我 - "`. -/
def strip_platform_prefix (name : String) : String :=
  if startsWithStr name "网易云 - " then
    String.mk (name.data.drop "网易云 - ".data.length)
  else if startsWithStr name "QQ - " then
    String.mk (name.data.drop "QQ - ".data.length)
  else if startsWithStr name "酷我 - " then
    String.mk (name.data.drop "酷我 - ".data.length)
  else name

/-- `song_id.split(":", 1)` when `":" in song_id`, else the
`("unknown", song_id)` fallback of `get_audio_cache_path`. -/
def splitColonOnce : List Char → Option (List Char × List Char)
  | [] => none
  | c :: rest =>
      if c = ':' then some ([], rest)
      else
        match splitColonOnce rest with
        | some (a, b) => some (c :: a, b)
        | none => none

/-- Platform and raw id extracted from a composite song id. -/
def parseSongId (song_id : String) : String × String :=
  match splitColonOnce song_id.data with
  | some (a, b) => (String.mk a, String.mk b)
  | none => ("unknown", song_id)

/-- `actual_id.replace("/", "_")`. -/
def replaceSlashes (s : String) : String :=
  String.mk (s.data.map (fun c => if c = '/' then '_' else c))

/-- The descriptive metadata optionally woven into a cache filename;
`metadata.get(field, "")` with a missing field is the empty string. -/
structure SongMeta where
  title : String
  artist : String
  album : String
  deriving DecidableEq, Repr

/-- `get_audio_cache_path(song_id, quality, metadata)` from `server.py`,
with `AUDIO_CACHE_DIR` passed explicitly as `dir`.  With usable metadata
(nonempty sanitized title and artist) the decorated filename
`title_artist[_album]_platform_id_quality.ext` is used; otherwise the
stable fallback `platform_id_quality.ext`. -/
def get_audio_cache_path (dir song_id quality : String)
    (metadata : Option SongMeta) : String :=
  let ext := if quality = "flac" ∨ quality = "flac24bit" then "flac" else "mp3"
  let pa := parseSongId song_id
  let platform := pa.1
  let safe_id := replaceSlashes pa.2
  let fallback := dir ++ "/" ++ platform ++ "_" ++ safe_id ++ "_" ++ quality
      ++ "." ++ ext
  match metadata with
  | some m =>
      let title := sanitize_filename m.title
      let artist := sanitize_filename ( strip_platform_prefix m.artist)
      let album := sanitize_filename m.album
      if title ≠ "" ∧ artist ≠ "" then
        let parts := [title, artist] ++ (if album ≠ "" then [album] else [])
            ++ [platform, safe_id, quality]
        dir ++ "/" ++ String.intercalate "_" parts ++ "." ++ ext
      else fallback
  | none => fallback

/-- The audio cache directory as a flat mapping from file path to the
byte content stored there. -/
abbrev Fs := List (String × List Nat)

/-- `os.path.exists` plus content read. -/
def fsLookup : Fs → String → Option (List Nat)
  | [], _ => none
  | (p, bs) :: rest, q => if p = q then some bs else fsLookup rest q

/-- Removal of a path (`os.remove`, or the source side of a rename). -/
def fsErase : Fs → String → Fs
  | [], _ => []
  | (p, bs) :: rest, q =>
      if p = q then fsErase rest q else (p, bs) :: fsErase rest q

/-- `open(path, 'wb')` followed by writing `bs`: creates or truncates. -/
def fsWrite (fs : Fs) (p : String) (bs : List Nat) : Fs :=
  (p, bs) :: fsErase fs p

/-- `os.rename(src, dst)`: atomic move of an existing file. -/
def osRename (fs : Fs) (src dst : String) : Fs :=
  match fsLookup fs src with
  | some bs => fsWrite (fsErase fs src) dst bs
  | none => fs

/-- `is_audio_cached(song_id, quality, metadata)` from `server.py`:
`os.path.exists(path) and os.path.getsize(path) > 0`. -/
def is_audio_cached (fs : Fs) (dir song_id quality : String)
    (metadata : Option SongMeta) : Bool :=
  match fsLookup fs (get_audio_cache_path dir song_id quality metadata) with
  | some bs => decide (0 < bs.length)
  | none => false

/-- How the download inside `download_audio_background` ends: the HTTP
response is not OK (nothing is written), the byte stream raises after
`i` chunks have been written to the temp file (no rename happens), or
every chunk is written and the temp file is renamed into place. -/
inductive DownloadEvent where
  | httpError
  | interrupted (i : Nat)
  | completed
  deriving DecidableEq, Repr

/-- `download_audio_background` from `server.py`, acting on the disk
store: bytes are streamed to `audio_path + ".tmp"`, and only a completed
stream is renamed to the final path.  The `if chunk:` guard skips empty
chunks, which leaves the concatenated content unchanged. -/
def download_audio_background (fs : Fs) (finalPath : String)
    (chunks : List (List Nat)) (ev : DownloadEvent) : Fs :=
  let tempPath := finalPath ++ ".tmp"
  match ev with
  | DownloadEvent.httpError => fs
  | DownloadEvent.interrupted i => fsWrite fs tempPath (chunks.take i).flatten
  | DownloadEvent.completed =>
      osRename (fsWrite fs tempPath chunks.flatten) tempPath finalPath

theorem fsLookup_write_self (fs : Fs) (p : String) (bs : List Nat) :
    fsLookup (fsWrite fs p bs) p = some bs := by
  simp [fsWrite, fsLookup]

theorem fsLookup_erase_self (fs : Fs) (p : String) :
    fsLookup (fsErase fs p) p = none := by
  induction fs with
  | nil => rfl
  | cons e rest ih =>
      obtain ⟨p₀, bs⟩ := e
      by_cases h : p₀ = p
      · simp [fsErase, h, ih]
      · simp [fsErase, fsLookup, h, ih]

theorem fsLookup_erase_ne (fs : Fs) (p q : String) (h : q ≠ p) :
    fsLookup (fsErase fs p) q = fsLookup fs q := by
  induction fs with
  | nil => rfl
  | cons e rest ih =>
      obtain ⟨p₀, bs⟩ := e
      by_cases h0 : p₀ = p
      · subst h0
        have hne : p₀ ≠ q := fun hc => h hc.symm
        simp [fsErase, fsLookup, hne, ih]
      · by_cases h1 : p₀ = q
        · subst h1
          simp [fsErase, fsLookup, h0]
        · simp [fsErase, fsLookup, h0, h1, ih]

theorem fsLookup_write_ne (fs : Fs) (p q : String) (bs : List Nat)
    (h : q ≠ p) : fsLookup (fsWrite fs p bs) q = fsLookup fs q := by
  have hne : p ≠ q := fun hc => h hc.symm
  simp [fsWrite, fsLookup, hne, fsLookup_erase_ne fs p q h]

theorem append_tmp_ne (s : String) : s ++ ".tmp" ≠ s := by
  intro h
  have hlen : (s ++ ".tmp").data.length = s.data.length := congrArg _ (congrArg _ h)
  simp [String.data_append] at hlen

/-- C10 — confirmed.  The disk-store lookup reports an asset present
exactly when the file at the derived path exists with size strictly
greater than zero; in particular a zero-byte file at the final
addressable path is reported as absent. -/
theorem C10_size_checked_lookup (fs : Fs) (dir song_id quality : String)
    (metadata : Option SongMeta) :
    (is_audio_cached fs dir song_id quality metadata = true ↔
      ∃ bs, fsLookup fs (get_audio_cache_path dir song_id quality metadata)
          = some bs ∧ 0 < bs.length) ∧
    (fsLookup fs (get_audio_cache_path dir song_id quality metadata)
        = some [] →
      is_audio_cached fs dir song_id quality metadata = false) := by
  constructor
  · unfold is_audio_cached
    cases hl : fsLookup fs (get_audio_cache_path dir song_id quality metadata) with
    | none =>
        simp only [Bool.false_eq_true, false_iff]
        rintro ⟨bs, hbs, _⟩
        simp [hl] at hbs
    | some bs =>
        simp only [decide_eq_true_eq]
        constructor
        · intro h
          exact ⟨bs, rfl, h⟩
        · rintro ⟨bs', hbs', h⟩
          cases hbs'
          exact h
  · intro h
    unfold is_audio_cached
    rw [h]
    rfl

/-- C10 — witness: a zero-byte file at the derived final path is
reported absent. -/
theorem C10_size_checked_lookup_witness :
    fsLookup [(get_audio_cache_path "audio" "netease:123" "320k" none, ([] : List Nat))]
        (get_audio_cache_path "audio" "netease:123" "320k" none) = some [] ∧
    is_audio_cached
        [(get_audio_cache_path "audio" "netease:123" "320k" none, ([] : List Nat))]
        "audio" "netease:123" "320k" none = false :=
  ⟨by decide,
   (C10_size_checked_lookup
      [(get_audio_cache_path "audio" "netease:123" "320k" none, ([] : List Nat))]
      "audio" "netease:123" "320k" none).2 (by decide)⟩

/-- C5 — counterexample.  A download whose byte stream completes having
delivered zero bytes (an OK response with an empty body) is renamed into
place as a zero-byte file, and `is_audio_cached` then reports it absent,
contradicting the claim that a completed write always leaves
`has(sourceId, quality)` true. -/
theorem C5_counterexample :
    fsLookup
        (download_audio_background []
          (get_audio_cache_path "audio" "netease:123" "320k" none) []
          DownloadEvent.completed)
        (get_audio_cache_path "audio" "netease:123" "320k" none) = some [] ∧
    ¬ (is_audio_cached
        (download_audio_background []
          (get_audio_cache_path "audio" "netease:123" "320k" none) []
          DownloadEvent.completed)
        "audio" "netease:123" "320k" none = true) := by
  decide

/-- C5 — amended.  An interrupted write performs no rename: the final
path stays absent (`has` remains false) and every path other than the
temp-suffixed one is untouched.  A completed write renames the temp file
into the final path, after which the stored file holds exactly the
delivered bytes, and `has` is true provided the stream delivered at
least one byte. -/
theorem C5_atomic_temp_then_rename (fs : Fs) (dir song_id quality : String)
    (metadata : Option SongMeta) (chunks : List (List Nat)) (i : Nat) :
    (fsLookup fs (get_audio_cache_path dir song_id quality metadata) = none →
      is_audio_cached
          (download_audio_background fs
            (get_audio_cache_path dir song_id quality metadata) chunks
            (DownloadEvent.interrupted i))
          dir song_id quality metadata = false ∧
      (∀ p, p ≠ get_audio_cache_path dir song_id quality metadata ++ ".tmp" →
        fsLookup
            (download_audio_background fs
              (get_audio_cache_path dir song_id quality metadata) chunks
              (DownloadEvent.interrupted i)) p = fsLookup fs p)) ∧
    (chunks.flatten ≠ [] →
      fsLookup
          (download_audio_background fs
            (get_audio_cache_path dir song_id quality metadata) chunks
            DownloadEvent.completed)
          (get_audio_cache_path dir song_id quality metadata)
        = some chunks.flatten ∧
      is_audio_cached
          (download_audio_background fs
            (get_audio_cache_path dir song_id quality metadata) chunks
            DownloadEvent.completed)
          dir song_id quality metadata = true) := by
  set fp := get_audio_cache_path dir song_id quality metadata with hfp
  constructor
  · intro habsent
    constructor
    · unfold is_audio_cached
      rw [← hfp]
      have : fsLookup
          (download_audio_background fs fp chunks (DownloadEvent.interrupted i))
          fp = none := by
        simp only [download_audio_background]
        rw [fsLookup_write_ne fs _ fp _ (fun hc => append_tmp_ne fp hc.symm)]
        exact habsent
      rw [this]
    · intro p hp
      simp only [download_audio_background]
      exact fsLookup_write_ne fs _ p _ hp
  · intro hne
    have hmain : fsLookup
        (download_audio_background fs fp chunks DownloadEvent.completed) fp
        = some chunks.flatten := by
      simp only [download_audio_background, osRename]
      rw [fsLookup_write_self]
      rw [fsLookup_write_self]
    refine ⟨hmain, ?_⟩
    unfold is_audio_cached
    rw [← hfp, hmain]
    simpa using List.length_pos.2 hne

/-- C5 — witness at a concrete instance: an interrupted two-chunk
download leaves the asset absent and other paths untouched; a completed
download of `[1, 2, 3]` leaves exactly those bytes visible. -/
theorem C5_atomic_temp_then_rename_witness :
    fsLookup [] (get_audio_cache_path "audio" "netease:123" "320k" none) = none ∧
    is_audio_cached
        (download_audio_background []
          (get_audio_cache_path "audio" "netease:123" "320k" none)
          [[1, 2], [3]] (DownloadEvent.interrupted 1))
        "audio" "netease:123" "320k" none = false ∧
    fsLookup
        (download_audio_background []
          (get_audio_cache_path "audio" "netease:123" "320k" none)
          [[1, 2], [3]] (DownloadEvent.interrupted 1)) "audio/other.mp3"
      = fsLookup [] "audio/other.mp3" ∧
    ([[1, 2], [3]] : List (List Nat)).flatten ≠ [] ∧
    fsLookup
        (download_audio_background []
          (get_audio_cache_path "audio" "netease:123" "320k" none)
          [[1, 2], [3]] DownloadEvent.completed)
        (get_audio_cache_path "audio" "netease:123" "320k" none)
      = some [1, 2, 3] ∧
    is_audio_cached
        (download_audio_background []
          (get_audio_cache_path "audio" "netease:123" "320k" none)
          [[1, 2], [3]] DownloadEvent.completed)
        "audio" "netease:123" "320k" none = true := by
  have h := C5_atomic_temp_then_rename [] "audio" "netease:123" "320k" none
      [[1, 2], [3]] 1
  refine ⟨by decide, (h.1 (by decide)).1,
    (h.1 (by decide)).2 "audio/other.mp3" (by decide), by decide, ?_, ?_⟩
  · have := (h.2 (by decide)).1
    simpa using this
  · exact (h.2 (by decide)).2

/-! ## Eviction sweep (`cleanup_audio_cache`) -/

/-- One entry of `os.listdir(AUDIO_CACHE_DIR)` as the sweep sees it:
path, last-modified time and size. -/
structure DFile where
  name : String
  mtime : Int
  size : Nat
  deriving DecidableEq, Repr

/-- A file still mid-write, identified by its temporary-path suffix. -/
def isTmpFile (f : DFile) : Bool :=
  endsWithStr f.name ".tmp"

/-- `get_audio_cache_size()` from `server.py`: the summed size of every
file in the directory, temp files included. -/
def get_audio_cache_size (files : List DFile) : Int :=
  (files.map (fun f => (f.size : Int))).sum

/-- The candidate list the sweep builds: non-temp files sorted by
ascending mtime (`files.sort(key=lambda x: x[1])`). -/
def sweepCandidates (files : List DFile) : List DFile :=
  List.insertionSort (fun a b => a.mtime ≤ b.mtime)
    (files.filter (fun f => ! isTmpFile f))

/-- The deletion loop of `cleanup_audio_cache`.  `removeFails` tells
which paths `os.remove` raises on; because the whole sweep sits inside a
single `try … except`, the first failing removal aborts the remainder of
the loop.  The returned list records the files actually deleted, in
order. -/
def cleanup_loop (maxSize : Int) (removeFails : String → Bool) :
    Int → List DFile → List DFile
  | _, [] => []
  | total, f :: rest =>
      if total ≤ maxSize then []
      else if removeFails f.name then []
      else f :: cleanup_loop maxSize removeFails (total - (f.size : Int)) rest

/-- `cleanup_audio_cache()` from `server.py` with the byte budget
`AUDIO_CACHE_MAX_SIZE` passed as `maxSize`: return immediately when
under budget, otherwise delete candidates oldest-first until the running
total is within budget. -/
def cleanup_audio_cache (maxSize : Int) (files : List DFile)
    (removeFails : String → Bool) : List DFile :=
  let total := get_audio_cache_size files
  if total ≤ maxSize then []
  else cleanup_loop maxSize removeFails total (sweepCandidates files)

/-- The failure oracle of a sweep in which every `os.remove` succeeds. -/
def noRemoveFailures : String → Bool :=
  fun _ => false

/-- How many files the deletion loop removes. -/
def evictCount (maxSize : Int) (removeFails : String → Bool) :
    Int → List DFile → Nat
  | _, [] => 0
  | total, f :: rest =>
      if total ≤ maxSize then 0
      else if removeFails f.name then 0
      else evictCount maxSize removeFails (total - (f.size : Int)) rest + 1

/-- Total size of the first `i` files of a candidate list. -/
def takeSizeSum (l : List DFile) (i : Nat) : Int :=
  ((l.take i).map (fun f => (f.size : Int))).sum

theorem takeSizeSum_zero (l : List DFile) : takeSizeSum l 0 = 0 := rfl

theorem takeSizeSum_cons (f : DFile) (rest : List DFile) (i : Nat) :
    takeSizeSum (f :: rest) (i + 1) = (f.size : Int) + takeSizeSum rest i := by
  simp [takeSizeSum, List.take_succ_cons]

theorem cleanup_loop_eq_take (maxSize : Int) (removeFails : String → Bool)
    (total : Int) (l : List DFile) :
    cleanup_loop maxSize removeFails total l
      = l.take (evictCount maxSize removeFails total l) := by
  induction l generalizing total with
  | nil => rfl
  | cons f rest ih =>
      by_cases h1 : total ≤ maxSize
      · simp [cleanup_loop, evictCount, h1]
      · by_cases h2 : removeFails f.name
        · simp [cleanup_loop, evictCount, h1, h2]
        · simp [cleanup_loop, evictCount, h1, h2, List.take_succ_cons, ih]

theorem evictCount_le_length (maxSize : Int) (removeFails : String → Bool)
    (total : Int) (l : List DFile) :
    evictCount maxSize removeFails total l ≤ l.length := by
  induction l generalizing total with
  | nil => exact Nat.le_refl 0
  | cons f rest ih =>
      by_cases h1 : total ≤ maxSize
      · simp [evictCount, h1]
      · by_cases h2 : removeFails f.name
        · simp [evictCount, h1, h2]
        · simp only [evictCount, if_neg h1, if_neg h2, List.length_cons]
          exact Nat.succ_le_succ (ih _)

theorem evictCount_over_budget (maxSize : Int) (removeFails : String → Bool)
    (total : Int) (l : List DFile) (i : Nat)
    (hi : i < evictCount maxSize removeFails total l) :
    maxSize < total - takeSizeSum l i := by
  induction l generalizing total i with
  | nil => simp [evictCount] at hi
  | cons f rest ih =>
      by_cases h1 : total ≤ maxSize
      · simp [evictCount, h1] at hi
      · by_cases h2 : removeFails f.name
        · simp [evictCount, h1, h2] at hi
        · cases i with
          | zero =>
              rw [takeSizeSum_zero]
              omega
          | succ i' =>
              simp only [evictCount, if_neg h1, if_neg h2] at hi
              have := ih (total - (f.size : Int)) i' (Nat.lt_of_succ_lt_succ hi)
              rw [takeSizeSum_cons]
              omega

theorem evictCount_stop (maxSize : Int) (removeFails : String → Bool)
    (total : Int) (l : List DFile) :
    evictCount maxSize removeFails total l = l.length ∨
    total - takeSizeSum l (evictCount maxSize removeFails total l) ≤ maxSize ∨
    (∃ f rest2, l.drop (evictCount maxSize removeFails total l) = f :: rest2 ∧
      removeFails f.name = true) := by
  induction l generalizing total with
  | nil => exact Or.inl rfl
  | cons f rest ih =>
      by_cases h1 : total ≤ maxSize
      · refine Or.inr (Or.inl ?_)
        simp only [evictCount, if_pos h1, takeSizeSum_zero]
        omega
      · by_cases h2 : removeFails f.name
        · refine Or.inr (Or.inr ?_)
          exact ⟨f, rest, by simp [evictCount, h1, h2], h2⟩
        · rcases ih (total - (f.size : Int)) with h | h | h
          · left
            simp [evictCount, h1, h2, h]
          · refine Or.inr (Or.inl ?_)
            simp only [evictCount, if_neg h1, if_neg h2, takeSizeSum_cons]
            omega
          · obtain ⟨g, rest2, hdrop, hg⟩ := h
            refine Or.inr (Or.inr ⟨g, rest2, ?_, hg⟩)
            simp only [evictCount, if_neg h1, if_neg h2, List.drop_succ_cons]
            exact hdrop

theorem mem_cleanup_loop_not_failed (maxSize : Int)
    (removeFails : String → Bool) (total : Int) (l : List DFile) (g : DFile)
    (hg : g ∈ cleanup_loop maxSize removeFails total l) :
    removeFails g.name = false := by
  induction l generalizing total with
  | nil => simp [cleanup_loop] at hg
  | cons f rest ih =>
      by_cases h1 : total ≤ maxSize
      · simp [cleanup_loop, h1] at hg
      · by_cases h2 : removeFails f.name
        · simp [cleanup_loop, h1, h2] at hg
        · simp only [cleanup_loop, if_neg h1, if_neg h2, List.mem_cons] at hg
          rcases hg with hg | hg
          · subst hg
            exact Bool.not_eq_true _ ▸ (by simpa using h2)
          · exact ih _ hg

theorem mem_cleanup_loop_subset (maxSize : Int) (removeFails : String → Bool)
    (total : Int) (l : List DFile) (g : DFile)
    (hg : g ∈ cleanup_loop maxSize removeFails total l) : g ∈ l := by
  rw [cleanup_loop_eq_take] at hg
  exact List.mem_of_mem_take hg

theorem cleanup_loop_no_delete_after_failure (maxSize : Int)
    (removeFails : String → Bool) (total : Int) (l : List DFile)
    (f g : DFile) (hf : f ∈ l)
    (hsorted : l.Pairwise (fun a b => a.mtime ≤ b.mtime))
    (hfail : removeFails f.name = true) (hlt : f.mtime < g.mtime) :
    g ∉ cleanup_loop maxSize removeFails total l := by
  induction l generalizing total with
  | nil => simp [cleanup_loop]
  | cons x rest ih =>
      by_cases h1 : total ≤ maxSize
      · simp [cleanup_loop, h1]
      · by_cases h2 : removeFails x.name
        · simp [cleanup_loop, h1, h2]
        · have hfx : f ≠ x := by
            intro hc
            rw [hc] at hfail
            exact h2 hfail
          have hfrest : f ∈ rest := by
            rcases List.mem_cons.1 hf with hc | hc
            · exact absurd hc hfx
            · exact hc
          simp only [cleanup_loop, if_neg h1, if_neg h2, List.mem_cons]
          rintro (hgx | hgrec)
          · subst hgx
            have := (List.pairwise_cons.1 hsorted).1 f hfrest
            omega
          · exact ih (total - (x.size : Int)) hfrest
              (List.pairwise_cons.1 hsorted).2 hgrec

theorem sweepCandidates_sorted (files : List DFile) :
    (sweepCandidates files).Pairwise (fun a b => a.mtime ≤ b.mtime) := by
  haveI : IsTotal DFile (fun a b => a.mtime ≤ b.mtime) :=
    ⟨fun a b => Int.le_total a.mtime b.mtime⟩
  haveI : IsTrans DFile (fun a b => a.mtime ≤ b.mtime) :=
    ⟨fun _ _ _ hab hbc => le_trans hab hbc⟩
  exact List.sorted_insertionSort _ _

theorem mem_sweepCandidates (files : List DFile) (f : DFile) :
    f ∈ sweepCandidates files ↔ f ∈ files ∧ isTmpFile f = false := by
  unfold sweepCandidates
  rw [List.mem_insertionSort, List.mem_filter]
  simp

/-- C6 — confirmed.  For a directory whose non-temporary files have
distinct modification times and whose total size exceeds the budget, the
sweep deletes exactly a prefix of the mtime-sorted non-temporary files:
the deleted files are in strictly increasing mtime order, every one of
them is non-temporary (temp-suffixed files are skipped), deletion stops
exactly when the running total falls within budget (or no candidate
remains), and before every deletion the total was still over budget. -/
theorem C6_eviction_oldest_first (maxSize : Int) (files : List DFile)
    (hdist : (files.filter (fun f => ! isTmpFile f)).Pairwise
        (fun a b => a.mtime ≠ b.mtime))
    (hover : maxSize < get_audio_cache_size files) :
    cleanup_audio_cache maxSize files noRemoveFailures
        = (sweepCandidates files).take
            (evictCount maxSize noRemoveFailures
              (get_audio_cache_size files) (sweepCandidates files)) ∧
    (cleanup_audio_cache maxSize files noRemoveFailures).Pairwise
        (fun a b => a.mtime < b.mtime) ∧
    (∀ f ∈ cleanup_audio_cache maxSize files noRemoveFailures,
        isTmpFile f = false) ∧
    (get_audio_cache_size files
        - takeSizeSum (sweepCandidates files)
            (evictCount maxSize noRemoveFailures
              (get_audio_cache_size files) (sweepCandidates files)) ≤ maxSize
      ∨ evictCount maxSize noRemoveFailures (get_audio_cache_size files)
            (sweepCandidates files) = (sweepCandidates files).length) ∧
    (∀ i, i < evictCount maxSize noRemoveFailures (get_audio_cache_size files)
            (sweepCandidates files) →
        maxSize < get_audio_cache_size files
            - takeSizeSum (sweepCandidates files) i) := by
  have hnotle : ¬ get_audio_cache_size files ≤ maxSize := by omega
  have hunfold : cleanup_audio_cache maxSize files noRemoveFailures
      = cleanup_loop maxSize noRemoveFailures (get_audio_cache_size files)
          (sweepCandidates files) := by
    simp [cleanup_audio_cache, hnotle]
  have htake := cleanup_loop_eq_take maxSize noRemoveFailures
      (get_audio_cache_size files) (sweepCandidates files)
  refine ⟨hunfold ▸ htake, ?_, ?_, ?_, ?_⟩
  · have hsorted := sweepCandidates_sorted files
    have hperm := List.perm_insertionSort
        (fun a b : DFile => a.mtime ≤ b.mtime)
        (files.filter (fun f => ! isTmpFile f))
    have hne : (sweepCandidates files).Pairwise (fun a b => a.mtime ≠ b.mtime) := by
      exact (hperm.pairwise_iff (fun hab => Ne.symm hab)).2 hdist
    have hstrict : (sweepCandidates files).Pairwise (fun a b => a.mtime < b.mtime) :=
      (hsorted.and hne).imp (fun h => lt_of_le_of_ne h.1 h.2)
    rw [hunfold, htake]
    exact hstrict.sublist (List.take_sublist _ _)
  · intro f hf
    rw [hunfold] at hf
    have := mem_cleanup_loop_subset _ _ _ _ _ hf
    exact ((mem_sweepCandidates files f).1 this).2
  · rcases evictCount_stop maxSize noRemoveFailures
        (get_audio_cache_size files) (sweepCandidates files) with h | h | h
    · exact Or.inr h
    · exact Or.inl h
    · obtain ⟨f, rest2, _, hfail⟩ := h
      simp [noRemoveFailures] at hfail
  · intro i hi
    exact evictCount_over_budget maxSize noRemoveFailures
        (get_audio_cache_size files) (sweepCandidates files) i hi

/-- The three-file scenario from the specification: 40, 40 and 40 units
written in that mtime order against a budget of 100. -/
def evictionScenarioFiles : List DFile :=
  [⟨"audio/a.mp3", 1, 40⟩, ⟨"audio/b.mp3", 2, 40⟩, ⟨"audio/c.mp3", 3, 40⟩]

/-- C6 — witness: on the 40/40/40 scenario with budget 100, the sweep
deletes exactly the oldest file, leaving 80 in use. -/
theorem C6_eviction_oldest_first_witness :
    (evictionScenarioFiles.filter (fun f => ! isTmpFile f)).Pairwise
        (fun a b => a.mtime ≠ b.mtime) ∧
    (100 : Int) < get_audio_cache_size evictionScenarioFiles ∧
    cleanup_audio_cache 100 evictionScenarioFiles noRemoveFailures
      = [⟨"audio/a.mp3", 1, 40⟩] := by
  have h := C6_eviction_oldest_first 100 evictionScenarioFiles
      (by decide) (by decide)
  exact ⟨by decide, by decide, h.1.trans (by decide)⟩

/-- C7 — counterexample.  Two eligible files of size 60 against budget
50; deleting the older one fails.  The claim says the failure is skipped
and the sweep continues, deleting the newer file; in the code the single
`try … except` around the whole sweep aborts it, so nothing at all is
deleted — while a failure-free sweep would have deleted both files. -/
def failsOnOldest : String → Bool :=
  fun n => n = "audio/a.mp3"

theorem C7_counterexample :
    cleanup_audio_cache 50
        [⟨"audio/a.mp3", 1, 60⟩, ⟨"audio/b.mp3", 2, 60⟩] failsOnOldest = [] ∧
    (⟨"audio/b.mp3", 2, 60⟩ : DFile) ∉ cleanup_audio_cache 50
        [⟨"audio/a.mp3", 1, 60⟩, ⟨"audio/b.mp3", 2, 60⟩] failsOnOldest ∧
    (⟨"audio/b.mp3", 2, 60⟩ : DFile) ∈ cleanup_audio_cache 50
        [⟨"audio/a.mp3", 1, 60⟩, ⟨"audio/b.mp3", 2, 60⟩] noRemoveFailures := by
  decide

/-- C7 — amended.  A failure to delete a file during the sweep is caught
by the sweep-wide handler and logged, and it is not fatal to the caller;
but the sweep does not continue past it: the failing file is never
deleted, and no eligible file newer than a failing eligible file is
deleted in that sweep. -/
theorem C7_failure_aborts_sweep (maxSize : Int) (files : List DFile)
    (removeFails : String → Bool) (f g : DFile) (hf : f ∈ files)
    (hftmp : isTmpFile f = false) (hgtmp : isTmpFile g = false)
    (hfail : removeFails f.name = true) (hlt : f.mtime < g.mtime) :
    (∀ d ∈ cleanup_audio_cache maxSize files removeFails,
        removeFails d.name = false) ∧
    g ∉ cleanup_audio_cache maxSize files removeFails := by
  constructor
  · intro d hd
    unfold cleanup_audio_cache at hd
    by_cases h1 : get_audio_cache_size files ≤ maxSize
    · simp [h1] at hd
    · simp only [if_neg h1] at hd
      exact mem_cleanup_loop_not_failed _ _ _ _ _ hd
  · unfold cleanup_audio_cache
    by_cases h1 : get_audio_cache_size files ≤ maxSize
    · simp [h1]
    · simp only [if_neg h1]
      exact cleanup_loop_no_delete_after_failure maxSize removeFails
          (get_audio_cache_size files) (sweepCandidates files) f g
          ((mem_sweepCandidates files f).2 ⟨hf, hftmp⟩)
          (sweepCandidates_sorted files) hfail hlt

/-- C7 — witness: on the two-file scenario, no file is deleted once the
older file's removal fails, and in particular the newer eligible file
survives the sweep. -/
theorem C7_failure_aborts_sweep_witness :
    ((⟨"audio/a.mp3", 1, 60⟩ : DFile) ∈
        [(⟨"audio/a.mp3", 1, 60⟩ : DFile), ⟨"audio/b.mp3", 2, 60⟩]) ∧
    isTmpFile (⟨"audio/a.mp3", 1, 60⟩ : DFile) = false ∧
    isTmpFile (⟨"audio/b.mp3", 2, 60⟩ : DFile) = false ∧
    failsOnOldest "audio/a.mp3" = true ∧
    (1 : Int) < 2 ∧
    (⟨"audio/b.mp3", 2, 60⟩ : DFile) ∉ cleanup_audio_cache 50
        [⟨"audio/a.mp3", 1, 60⟩, ⟨"audio/b.mp3", 2, 60⟩] failsOnOldest :=
  ⟨by decide, by decide, by decide, by decide, by decide,
   (C7_failure_aborts_sweep 50
      [⟨"audio/a.mp3", 1, 60⟩, ⟨"audio/b.mp3", 2, 60⟩] failsOnOldest
      ⟨"audio/a.mp3", 1, 60⟩ ⟨"audio/b.mp3", 2, 60⟩
      (by decide) (by decide) (by decide) (by decide) (by decide)).2⟩

/-! ## Concurrent `getPlaylist` requests

`get_playlist` consults the playlist tier and, on a miss, calls the
upstream resolver and writes the result back — with no pending-request
coalescing (the `pending_requests` set is used only by `stream`).  Each
request is modelled as a thread running three atomic sections, matching
the lock granularity of the code: `pc = 0` reads the cache under the
lock, `pc = 1` performs the upstream call outside the lock, `pc = 2`
writes the result under the lock, `pc = 3` is finished.  The resolver is
deterministic, always returning `R`. -/

structure PThread (α : Type) where
  pc : Nat
  res : Option α
  deriving DecidableEq, Repr

structure PState (α : Type) where
  tier : CacheTier α
  calls : Nat
  threads : List (PThread α)
  deriving DecidableEq, Repr

/-- One atomic section of the thread chosen by the scheduler. -/
def playlistStep {α : Type} (R : α) (now : Int) (key : String) (ttl : Int)
    (s : PState α) (i : Nat) : PState α :=
  match s.threads[i]? with
  | none => s
  | some th =>
      match th.pc with
      | 0 =>
          match get_cached s.tier now key ttl with
          | (some v, t2) =>
              { s with tier := t2, threads := s.threads.set i ⟨3, some v⟩ }
          | (none, t2) =>
              { s with tier := t2, threads := s.threads.set i ⟨1, th.res⟩ }
      | 1 =>
          { s with calls := s.calls + 1,
                   threads := s.threads.set i ⟨2, some R⟩ }
      | 2 =>
          { s with tier := set_cached s.tier now key R,
                   threads := s.threads.set i ⟨3, th.res⟩ }
      | _ => s

/-- Run the scheduler's interleaving choices in order. -/
def runSchedule {α : Type} (R : α) (now : Int) (key : String) (ttl : Int)
    (sched : List Nat) (s : PState α) : PState α :=
  sched.foldl (playlistStep R now key ttl) s

/-- `n` requests arriving at an empty playlist tier. -/
def initPlaylistState (α : Type) (n : Nat) : PState α :=
  ⟨[], 0, List.replicate n ⟨0, none⟩⟩

/-- The cache key `get_playlist` builds for the playlist id
`netease_19723756`: `f"playlist_detail_{playlist_id}"`. -/
def playlistCacheKey : String :=
  "playlist_detail_netease_19723756"

/-- Ten concurrent `getPlaylist` requests for `netease_19723756`,
resolved with the 21600-second TTL the route uses. -/
def playlistRun (α : Type) (R : α) (now : Int) (sched : List Nat) : PState α :=
  runSchedule R now playlistCacheKey 21600 sched (initPlaylistState α 10)

/-- 1 once a thread has passed (or is past) its upstream call. -/
def fetchMark {α : Type} (th : PThread α) : Nat :=
  if 2 ≤ th.pc then 1 else 0

theorem sum_map_set_add {β : Type} (l : List β) (i : Nat) (x : β)
    (f : β → Nat) (h : i < l.length) :
    ((l.set i x).map f).sum + f l[i] = (l.map f).sum + f x := by
  induction l generalizing i with
  | nil => exact absurd h (Nat.not_lt_zero i)
  | cons y rest ih =>
      cases i with
      | zero => simp [List.set]; omega
      | succ i' =>
          have hi' : i' < rest.length := Nat.lt_of_succ_lt_succ h
          have := ih i' hi'
          simp only [List.set, List.map_cons, List.sum_cons, List.getElem_cons_succ]
          omega

theorem sum_map_le_length {β : Type} (l : List β) (f : β → Nat)
    (hf : ∀ x, f x ≤ 1) : (l.map f).sum ≤ l.length := by
  induction l with
  | nil => exact Nat.le_refl 0
  | cons y rest ih =>
      simp only [List.map_cons, List.sum_cons, List.length_cons]
      have := hf y
      omega

/-- Invariant of the ten-request episode: the playlist key holds either
nothing or the resolver's value stamped `now`; every thread past its
upstream call carries the resolver's value; the number of upstream calls
is bounded by the threads that performed one; and either the key is
populated, some thread is mid-resolution, or nothing has happened yet. -/
structure PlaylistInv {α : Type} (R : α) (now : Int) (key : String)
    (s : PState α) : Prop where
  lk : tierLookup s.tier key = none ∨
      tierLookup s.tier key = some (CacheEntry.pair R now)
  res_ok : ∀ j, (h : j < s.threads.length) → 2 ≤ (s.threads[j]).pc →
      (s.threads[j]).res = some R
  calls_le : s.calls ≤ (s.threads.map fetchMark).sum
  progress : tierLookup s.tier key = some (CacheEntry.pair R now) ∨
      (∃ j, ∃ _h : j < s.threads.length,
        (s.threads[j]).pc = 1 ∨ (s.threads[j]).pc = 2) ∨
      (∀ j, (h : j < s.threads.length) → (s.threads[j]).pc = 0)
  len : s.threads.length = 10

theorem fetchMark_pc0 {α : Type} (res : Option α) :
    fetchMark (⟨0, res⟩ : PThread α) = 0 := rfl

theorem fetchMark_pc1 {α : Type} (res : Option α) :
    fetchMark (⟨1, res⟩ : PThread α) = 0 := rfl

theorem fetchMark_pc2 {α : Type} (res : Option α) :
    fetchMark (⟨2, res⟩ : PThread α) = 1 := rfl

theorem fetchMark_pc3 {α : Type} (res : Option α) :
    fetchMark (⟨3, res⟩ : PThread α) = 1 := rfl

theorem playlistStep_inv {α : Type} (R : α) (now : Int) (key : String)
    (ttl : Int) (s : PState α) (i : Nat) (hs : PlaylistInv R now key s) :
    PlaylistInv R now key (playlistStep R now key ttl s i) := by
  cases hth : s.threads[i]? with
  | none =>
      simpa only [playlistStep, hth] using hs
  | some th =>
      have hi : i < s.threads.length := (List.getElem?_eq_some.1 hth).1
      have hgi : s.threads[i] = th := (List.getElem?_eq_some.1 hth).2
      obtain ⟨pc, res⟩ := th
      have hres0 : 2 ≤ pc → res = some R := by
        intro h2
        have := hs.res_ok i hi
        rw [hgi] at this
        exact this h2
      rcases pc with _ | _ | _ | pc3
      -- pc = 0: read the cache under the lock
      · rcases hs.lk with hlk | hlk
        · -- cache miss: move to the upstream call
          have heq : get_cached s.tier now key ttl = (none, s.tier) := by
            simp [get_cached, hlk]
          simp only [playlistStep, hth, heq]
          refine ⟨Or.inl hlk, ?_, ?_, ?_, ?_⟩
          · intro j hj hpc
            have hj2 : j < s.threads.length := by simpa using hj
            by_cases hij : i = j
            · subst hij
              rw [List.getElem_set_self] at hpc
              simp at hpc
            · rw [List.getElem_set_ne hij] at hpc ⊢
              exact hs.res_ok j hj2 hpc
          · have hsum := sum_map_set_add s.threads i ⟨1, res⟩ fetchMark hi
            have hold : fetchMark (s.threads[i]) = 0 := by rw [hgi]; rfl
            have hnew : fetchMark (⟨1, res⟩ : PThread α) = 0 := rfl
            have := hs.calls_le
            simp only []
            omega
          · refine Or.inr (Or.inl ⟨i, ⟨by simpa using hi, ?_⟩⟩)
            simp [List.getElem_set_self]
          · simpa using hs.len
        · -- entry present: hit if fresh, lazily evicted if expired
          by_cases httl : now - now < ttl
          · have httl0 : (0 : Int) < ttl := by omega
            have heq : get_cached s.tier now key ttl = (some R, s.tier) := by
              simp [get_cached, hlk, httl0]
            simp only [playlistStep, hth, heq]
            refine ⟨Or.inr hlk, ?_, ?_, Or.inl hlk, ?_⟩
            · intro j hj hpc
              have hj2 : j < s.threads.length := by simpa using hj
              by_cases hij : i = j
              · subst hij
                rw [List.getElem_set_self]
              · rw [List.getElem_set_ne hij] at hpc ⊢
                exact hs.res_ok j hj2 hpc
            · have hsum := sum_map_set_add s.threads i ⟨3, some R⟩ fetchMark hi
              have hold : fetchMark (s.threads[i]) = 0 := by rw [hgi]; rfl
              have hnew : fetchMark (⟨3, some R⟩ : PThread α) = 1 := rfl
              have := hs.calls_le
              simp only []
              omega
            · simpa using hs.len
          · have httl0 : ¬ ((0 : Int) < ttl) := by omega
            have heq : get_cached s.tier now key ttl
                = (none, tierErase s.tier key) := by
              simp [get_cached, hlk, httl0]
            simp only [playlistStep, hth, heq]
            refine ⟨Or.inl (tierLookup_erase_self s.tier key), ?_, ?_, ?_, ?_⟩
            · intro j hj hpc
              have hj2 : j < s.threads.length := by simpa using hj
              by_cases hij : i = j
              · subst hij
                rw [List.getElem_set_self] at hpc
                simp at hpc
              · rw [List.getElem_set_ne hij] at hpc ⊢
                exact hs.res_ok j hj2 hpc
            · have hsum := sum_map_set_add s.threads i ⟨1, res⟩ fetchMark hi
              have hold : fetchMark (s.threads[i]) = 0 := by rw [hgi]; rfl
              have hnew : fetchMark (⟨1, res⟩ : PThread α) = 0 := rfl
              have := hs.calls_le
              simp only []
              omega
            · refine Or.inr (Or.inl ⟨i, ⟨by simpa using hi, ?_⟩⟩)
              simp [List.getElem_set_self]
            · simpa using hs.len
      -- pc = 1: the upstream call, outside the lock
      · simp only [playlistStep, hth]
        refine ⟨hs.lk, ?_, ?_, ?_, ?_⟩
        · intro j hj hpc
          have hj2 : j < s.threads.length := by simpa using hj
          by_cases hij : i = j
          · subst hij
            rw [List.getElem_set_self]
          · rw [List.getElem_set_ne hij] at hpc ⊢
            exact hs.res_ok j hj2 hpc
        · have hsum := sum_map_set_add s.threads i ⟨2, some R⟩ fetchMark hi
          have hold : fetchMark (s.threads[i]) = 0 := by rw [hgi]; rfl
          have hnew : fetchMark (⟨2, some R⟩ : PThread α) = 1 := rfl
          have := hs.calls_le
          simp only []
          omega
        · refine Or.inr (Or.inl ⟨i, ⟨by simpa using hi, ?_⟩⟩)
          simp [List.getElem_set_self]
        · simpa using hs.len
      -- pc = 2: write the result back under the lock
      · have hres : res = some R := hres0 (by decide)
        simp only [playlistStep, hth]
        refine ⟨Or.inr (tierLookup_set_self s.tier key _), ?_, ?_,
          Or.inl (tierLookup_set_self s.tier key _), ?_⟩
        · intro j hj hpc
          have hj2 : j < s.threads.length := by simpa using hj
          by_cases hij : i = j
          · subst hij
            rw [List.getElem_set_self]
            exact hres
          · rw [List.getElem_set_ne hij] at hpc ⊢
            exact hs.res_ok j hj2 hpc
        · have hsum := sum_map_set_add s.threads i ⟨3, res⟩ fetchMark hi
          have hold : fetchMark (s.threads[i]) = 1 := by rw [hgi]; rfl
          have hnew : fetchMark (⟨3, res⟩ : PThread α) = 1 := rfl
          have := hs.calls_le
          simp only []
          omega
        · simpa using hs.len
      -- pc ≥ 3: finished, no-op
      · simpa only [playlistStep, hth] using hs

theorem runSchedule_inv {α : Type} (R : α) (now : Int) (key : String)
    (ttl : Int) (sched : List Nat) (s : PState α)
    (hs : PlaylistInv R now key s) :
    PlaylistInv R now key (runSchedule R now key ttl sched s) := by
  induction sched generalizing s with
  | nil => exact hs
  | cons i rest ih =>
      exact ih _ (playlistStep_inv R now key ttl s i hs)

theorem initPlaylistState_inv {α : Type} (R : α) (now : Int) (key : String) :
    PlaylistInv R now key (initPlaylistState α 10) := by
  refine ⟨Or.inl rfl, ?_, ?_, Or.inr (Or.inr ?_), by simp [initPlaylistState]⟩
  · intro j hj hpc
    have h0 : (initPlaylistState α 10).threads[j] = (⟨0, none⟩ : PThread α) :=
      List.getElem_replicate _ (by simpa [initPlaylistState] using hj)
    rw [h0] at hpc
    simp at hpc
  · exact Nat.zero_le _
  · intro j hj
    have h0 : (initPlaylistState α 10).threads[j] = (⟨0, none⟩ : PThread α) :=
      List.getElem_replicate _ (by simpa [initPlaylistState] using hj)
    rw [h0]

/-- C3 — counterexample.  Ten concurrent requests for the playlist key
all read the empty cache before any of them writes (the all-miss
interleaving), and each then performs its own upstream call:
`get_playlist` has no request coalescing, so the resolver is invoked ten
times, not exactly once. -/
theorem C3_counterexample :
    (playlistRun Nat 42 0
        [0, 1, 2, 3, 4, 5, 6, 7, 8, 9, 0, 1, 2, 3, 4, 5, 6, 7, 8, 9]).calls
      = 10 ∧
    ¬ ((playlistRun Nat 42 0
        [0, 1, 2, 3, 4, 5, 6, 7, 8, 9, 0, 1, 2, 3, 4, 5, 6, 7, 8, 9]).calls
      = 1) := by
  exact ⟨rfl, by decide⟩

/-- C3 — amended.  On a cache miss for the playlist key with TTL 21600s,
each of the 10 concurrent requests that observes the miss invokes the
upstream resolver itself (`get_playlist` performs no coalescing), so the
resolver is invoked at most once per request — up to 10 times, not
exactly once; every finished request holds the same resolved collection;
and once all requests have finished, the cache hits on that key for the
next 21600 seconds. -/
theorem C3_no_coalescing_per_request_resolution {α : Type} (R : α)
    (now : Int) (sched : List Nat) :
    (playlistRun α R now sched).calls ≤ 10 ∧
    (∀ j, (h : j < (playlistRun α R now sched).threads.length) →
      ((playlistRun α R now sched).threads[j]).pc = 3 →
      ((playlistRun α R now sched).threads[j]).res = some R) ∧
    ((∀ j, (h : j < (playlistRun α R now sched).threads.length) →
        ((playlistRun α R now sched).threads[j]).pc = 3) →
      ∀ w : Int, 0 ≤ w → w < 21600 →
        (get_cached (playlistRun α R now sched).tier (now + w)
          playlistCacheKey 21600).1 = some R) := by
  have hinv : PlaylistInv R now playlistCacheKey (playlistRun α R now sched) :=
    runSchedule_inv R now playlistCacheKey 21600 sched _
      (initPlaylistState_inv R now playlistCacheKey)
  refine ⟨?_, ?_, ?_⟩
  · have h1 := hinv.calls_le
    have h2 := sum_map_le_length (playlistRun α R now sched).threads fetchMark
        (fun x => by unfold fetchMark; split <;> omega)
    have h3 := hinv.len
    omega
  · intro j hj hpc
    exact hinv.res_ok j hj (by omega)
  · intro hall w hw0 hw1
    have hsome : tierLookup (playlistRun α R now sched).tier playlistCacheKey
        = some (CacheEntry.pair R now) := by
      rcases hinv.progress with h | h | h
      · exact h
      · obtain ⟨j, hj, hpc⟩ := h
        have := hall j hj
        omega
      · have hlen := hinv.len
        have h0 : (0 : Nat) < (playlistRun α R now sched).threads.length := by
          omega
        have := hall 0 h0
        have := h 0 h0
        omega
    simp only [get_cached, hsome]
    rw [if_pos (by omega)]

/-- C3 — witness for the amended theorem: a completing interleaving
(thread 0 misses, resolves and writes; the rest hit) after which the
cache hits at 100 seconds past the write. -/
theorem C3_no_coalescing_witness :
    (0 : Int) ≤ 100 ∧ (100 : Int) < 21600 ∧
    (get_cached
        (playlistRun Nat 7 0 [0, 0, 0, 1, 2, 3, 4, 5, 6, 7, 8, 9]).tier
        (0 + 100) playlistCacheKey 21600).1 = some 7 :=
  ⟨by decide, by decide,
   (C3_no_coalescing_per_request_resolution 7 0
      [0, 0, 0, 1, 2, 3, 4, 5, 6, 7, 8, 9]).2.2 (by decide) 100 (by decide)
      (by decide)⟩

end MusicTune
